import Mathlib

/-!
Shallow embedding of the Lithium runtime (src/parser.rs, src/object.rs,
src/eval.rs): a prototype-based, message-passing language.  The AST mirrors
parser.rs; the object model mirrors object.rs / eval.rs, with the
`Rc<RefCell<Box<Object>>>` cells of eval.rs modelled as a heap (list of
objects addressed by `Nat`) threaded through evaluation, and every panic
modelled as an error value.  Evaluation is fuel-indexed: every recursive
step consumes one unit of fuel, so all definitions are structural and
computable.
-/

namespace Lithium

/-! AST, translated from src/parser.rs. -/

mutual

inductive Expression where
  | send (target : Target) (messages : List Message)
  | number (digits : String)
  | lambda (body : Block)

inductive Target where
  | number (digits : String)
  | identifier (name : String)
  | expression (e : Expression)

inductive Message where
  | mk (name : String) (arguments : List Argument)

inductive Argument where
  | mk (name : String) (value : Expression)

inductive Block where
  | mk (statements : List Statement)

inductive Statement where
  | expression (e : Expression)
  | definition (target : String) (value : Expression)

end

/-! Object model, translated from src/object.rs and src/eval.rs. -/

/-- Metadata: optional native payload carried on the handle
(`Metadata` in object.rs). -/
inductive Metadata where
  | numericValue (v : Int)
  | none
deriving DecidableEq, Repr

/-- A handle to a heap cell, modelling eval.rs `ObjectRef`: the `Rc` cell is
an address into the heap and the metadata is copied along with the handle. -/
structure ObjectRef where
  addr : Nat
  metadata : Metadata
deriving DecidableEq, Repr

/-- Heap-resident object kinds: RootObject, Void, Number, Lambda (eval.rs)
and NormalObject (object.rs).  A Lambda stores the captured defining scope
handle and its body block; a NormalObject stores its prototype handle and
its property map (modelled as an association list with overwrite-on-insert,
mirroring `HashMap::insert`). -/
inductive Obj where
  | root
  | void
  | number
  | lambda (parentScope : ObjectRef) (body : Block)
  | normal (prototype : ObjectRef) (properties : List (String × ObjectRef))

/-- Mutable run state: the heap of allocated objects (nothing is ever freed)
and the text printed to standard output, as the list of integers printed. -/
structure State where
  heap : List Obj
  output : List Int

/-- A message whose argument expressions have been evaluated to handles
(`EvaluatedMessage` in object.rs). -/
structure EvaluatedMessage where
  name : String
  arguments : List (String × ObjectRef)

/-- Error kinds: each models one of the `panic!`/`expect`/`unwrap` sites of
the source, which abort evaluation. -/
inductive Err where
  | unknownMessage
  | invalidSignature
  | illegalDefinition
  | typeMismatch
  | emptyBlock
  | emptyExpression
  | numberParseFailure
  | internalErr
  | outOfFuel
deriving DecidableEq, Repr

/-- Result of an evaluation step: the produced handle or the aborting error,
together with the state reached (side effects before an abort are kept). -/
abbrev Res := (Except Err ObjectRef) × State

/-! Pure helpers, translated from eval.rs. -/

/-- Two's-complement wraparound into the 64-bit signed range, the release
semantics of Rust `i64` addition in `Number#add`. -/
def i64wrap (x : Int) : Int := (x + 2 ^ 63) % 2 ^ 64 - 2 ^ 63

def i64Max : Int := 2 ^ 63 - 1

/-- Decimal accumulation pass of `digits.parse::<i64>()`: fails on any
non-digit character, else accumulates the decimal value. -/
def digitsToNat : List Char → Nat → Option Nat
  | [], acc => Option.some acc
  | c :: rest, acc =>
    if c.isDigit then digitsToNat rest (acc * 10 + (c.toNat - 48)) else Option.none

/-- Model of `digits.parse::<i64>()` in `Number::new_reference` for the
digit strings produced by the tokenizer: the decimal value when the string
is non-empty, all characters are digits and the value fits in `i64`,
otherwise failure. -/
def parseI64 (digits : String) : Option Int :=
  match digits.data with
  | [] => Option.none
  | cs =>
    match digitsToNat cs 0 with
    | Option.some n => if (n : Int) ≤ i64Max then Option.some (n : Int) else Option.none
    | Option.none => Option.none

/-- `Signature::is_message_valid`: exact argument count and by-name presence
of every parameter. -/
def isMessageValid (parameters : List String) (msg : EvaluatedMessage) : Bool :=
  msg.arguments.length = parameters.length &&
    parameters.all (fun p => msg.arguments.any (fun a => a.1 = p))

/-- `get_argument`: first argument with the given name. -/
def getArgument (target : String) (arguments : List (String × ObjectRef)) : Option ObjectRef :=
  (arguments.filter (fun a => a.1 = target)).head?.map Prod.snd

/-- `HashMap::insert` on the property map: overwrite an existing key, else
add the binding. -/
def insertProp : List (String × ObjectRef) → String → ObjectRef → List (String × ObjectRef)
  | [], n, v => [(n, v)]
  | (k, w) :: rest, n, v =>
    if k = n then (n, v) :: rest else (k, w) :: insertProp rest n v

/-- `HashMap::get` on the property map. -/
def findProp (props : List (String × ObjectRef)) (n : String) : Option ObjectRef :=
  (props.find? (fun p => p.1 = n)).map Prod.snd

/-- The handle a fresh allocation in state `st` will receive. -/
def freshRef (st : State) (md : Metadata) : ObjectRef :=
  ObjectRef.mk st.heap.length md

/-- Allocate an object at the end of the heap. -/
def allocState (st : State) (o : Obj) : State :=
  State.mk (st.heap ++ [o]) st.output

/-- The scope handle `eval_block` creates (fresh `NormalObject`). -/
def freshScopeRef (st : State) : ObjectRef := freshRef st Metadata.none

/-- The state after `eval_block` allocates its fresh scope extending
`parent`. -/
def allocScope (st : State) (parent : ObjectRef) : State :=
  allocState st (Obj.normal parent [])

/-- `Number::send`, translated from eval.rs: requires a numeric payload on
the execution context, handles `println` (append the value to the output,
return a fresh Void) and `add` (signature `to:`, numeric argument, fresh
Number holding the wraparound sum); every other message panics. -/
def numberSend (st : State) (target : ObjectRef) (msg : EvaluatedMessage) : Res :=
  match target.metadata with
  | Metadata.numericValue v =>
    if msg.name = "println" then
      (Except.ok (freshRef st Metadata.none),
        State.mk (st.heap ++ [Obj.void]) (st.output ++ [v]))
    else if msg.name = "add" then
      if isMessageValid ["to"] msg then
        match getArgument "to" msg.arguments with
        | Option.some other =>
          match other.metadata with
          | Metadata.numericValue w =>
            (Except.ok (freshRef st (Metadata.numericValue (i64wrap (v + w)))),
              State.mk (st.heap ++ [Obj.number]) st.output)
          | Metadata.none => (Except.error Err.typeMismatch, st)
        | Option.none => (Except.error Err.internalErr, st)
      else (Except.error Err.invalidSignature, st)
    else (Except.error Err.unknownMessage, st)
  | Metadata.none => (Except.error Err.typeMismatch, st)

/-- `Number::new_reference` followed by the handle construction of
`new_with_metadata`: parse the digits and allocate a fresh Number. -/
def numberNewReference (st : State) (digits : String) : Res :=
  match parseI64 digits with
  | Option.some v =>
    (Except.ok (freshRef st (Metadata.numericValue v)), allocState st Obj.number)
  | Option.none => (Except.error Err.numberParseFailure, st)

/-- `define` dispatch: `NormalObject::define` inserts (overwriting) into the
property map and returns the value; every native kind panics. -/
def defineRef (st : State) (r : ObjectRef) (name : String) (value : ObjectRef) : Res :=
  match st.heap[r.addr]? with
  | Option.some (Obj.normal proto props) =>
    (Except.ok value,
      State.mk (st.heap.set r.addr (Obj.normal proto (insertProp props name value))) st.output)
  | Option.some _ => (Except.error Err.illegalDefinition, st)
  | Option.none => (Except.error Err.internalErr, st)

/-! Sequencing helpers.  These are the loops of eval.rs, written as
higher-order list folds so that every statement (or message, or argument)
of one block runs at the same fuel level. -/

/-- The statement loop of `eval_block`: evaluate each statement in order,
keeping the last result (`last` in the source). -/
def runStmtsLoop (f : Statement → State → Res) : ObjectRef → List Statement → State → Res
  | lastVal, [], st => (Except.ok lastVal, st)
  | _, s :: rest, st =>
    match f s st with
    | (Except.error e, st2) => (Except.error e, st2)
    | (Except.ok v, st2) => runStmtsLoop f v rest st2

/-- The argument loop of `eval_message`: evaluate each argument expression
in declaration order, pairing names with handles. -/
def runArgs (f : Expression → State → Res) :
    List Argument → State → (Except Err (List (String × ObjectRef))) × State
  | [], st => (Except.ok [], st)
  | Argument.mk n e :: rest, st =>
    match f e st with
    | (Except.error err, st2) => (Except.error err, st2)
    | (Except.ok v, st2) =>
      match runArgs f rest st2 with
      | (Except.error err, st3) => (Except.error err, st3)
      | (Except.ok tail, st3) => (Except.ok ((n, v) :: tail), st3)

/-- The message loop of `eval_expression`: `.map(..).last()` applies the
send to every message in order and keeps only the last result; an empty
message list hits the `expect` panic. -/
def runMsgs (f : Message → State → Res) : List Message → State → Res
  | [], st => (Except.error Err.emptyExpression, st)
  | [m], st => f m st
  | m :: rest, st =>
    match f m st with
    | (Except.error e, st2) => (Except.error e, st2)
    | (Except.ok _, st2) => runMsgs f rest st2

/-- The pending work items of the evaluator, one per mutually recursive
function of the source (`send` dispatch, `eval_block`, `eval_statement`,
`eval_expression`). -/
inductive Task where
  | send (receiver target : ObjectRef) (msg : EvaluatedMessage)
  | block (parent : ObjectRef) (b : Block)
  | stmt (scope : ObjectRef) (s : Statement)
  | expr (scope : ObjectRef) (e : Expression)

/-- The evaluator.  `Task.send r target msg` is `r.send(target, msg)` of
eval.rs: dispatch on the heap object at `r`.  RootObject panics on any
message; Void returns the context handle unchanged; Number is `numberSend`;
Lambda answers `call` by evaluating its body under its captured scope
(`call_with_captured_context`) and panics otherwise; NormalObject
(`get_handler` in object.rs) sends a fresh zero-argument `call` to a local
property if one matches the message name, else delegates to its prototype
passing the original target through.  `Task.block` is `eval_block`:
allocate a fresh scope extending the parent, fail on an empty statement
list, else run the statements in order keeping the last result.
`Task.stmt` is `eval_statement`; `Task.expr` is `eval_expression`. -/
def evalStepF (rec : Task → State → Res) : Task → State → Res
  | Task.send r target msg, st =>
    match st.heap[r.addr]? with
    | Option.none => (Except.error Err.internalErr, st)
    | Option.some Obj.root => (Except.error Err.unknownMessage, st)
    | Option.some Obj.void => (Except.ok target, st)
    | Option.some Obj.number => numberSend st target msg
    | Option.some (Obj.lambda parentScope body) =>
      if msg.name = "call" then rec (Task.block parentScope body) st
      else (Except.error Err.unknownMessage, st)
    | Option.some (Obj.normal proto props) =>
      match findProp props msg.name with
      | Option.some defined =>
        rec (Task.send defined defined (EvaluatedMessage.mk "call" [])) st
      | Option.none => rec (Task.send proto target msg) st
  | Task.block parent b, st =>
    match b with
    | Block.mk [] => (Except.error Err.emptyBlock, allocScope st parent)
    | Block.mk (s :: rest) =>
      match rec (Task.stmt (freshScopeRef st) s) (allocScope st parent) with
      | (Except.error e, st2) => (Except.error e, st2)
      | (Except.ok v, st2) =>
        runStmtsLoop (fun s2 st3 => rec (Task.stmt (freshScopeRef st) s2) st3) v rest st2
  | Task.stmt scope s, st =>
    match s with
    | Statement.expression e => rec (Task.expr scope e) st
    | Statement.definition name value =>
      match rec (Task.expr scope value) st with
      | (Except.error e, st2) => (Except.error e, st2)
      | (Except.ok v, st2) => defineRef st2 scope name v
  | Task.expr scope e, st =>
    match e with
    | Expression.number digits => numberNewReference st digits
    | Expression.lambda body =>
      (Except.ok (freshRef st Metadata.none), allocState st (Obj.lambda scope body))
    | Expression.send target msgs =>
      let tr : Res :=
        match target with
        | Target.identifier ident =>
          rec (Task.send scope scope (EvaluatedMessage.mk ident [])) st
        | Target.number digits => numberNewReference st digits
        | Target.expression te => rec (Task.expr scope te) st
      match tr with
      | (Except.error err, st1) => (Except.error err, st1)
      | (Except.ok t, st1) =>
        runMsgs
          (fun m stm =>
            match m with
            | Message.mk mname margs =>
              match runArgs (fun e2 st2 => rec (Task.expr scope e2) st2) margs stm with
              | (Except.error err, stm2) => (Except.error err, stm2)
              | (Except.ok bindings, stm2) =>
                rec (Task.send t t (EvaluatedMessage.mk mname bindings)) stm2)
          msgs st1

/-- Fuel-indexed evaluation: iterate `evalStepF`, failing when the fuel is
exhausted.  Structural on the fuel, so concrete runs compute by
reduction. -/
def evalStep : Nat → Task → State → Res
  | 0, _, st => (Except.error Err.outOfFuel, st)
  | Nat.succ fuel, task, st => evalStepF (evalStep fuel) task st

/-- `ObjectRef::send` / arena dispatch entry point. -/
def send (fuel : Nat) (st : State) (receiver target : ObjectRef) (msg : EvaluatedMessage) : Res :=
  evalStep fuel (Task.send receiver target msg) st

/-- `Program::eval_block`. -/
def eval_block (fuel : Nat) (st : State) (parent : ObjectRef) (b : Block) : Res :=
  evalStep fuel (Task.block parent b) st

/-- `Program::eval_statement`. -/
def eval_statement (fuel : Nat) (st : State) (scope : ObjectRef) (s : Statement) : Res :=
  evalStep fuel (Task.stmt scope s) st

/-- `Program::eval_expression`. -/
def eval_expression (fuel : Nat) (st : State) (scope : ObjectRef) (e : Expression) : Res :=
  evalStep fuel (Task.expr scope e) st

/-- `Lambda::call_with_context`, translated from eval.rs: evaluate the body
block under a given execution context.  In the source this function exists
(with a comment saying it is for methods that have bubbled up from a child
object) but is never called. -/
def call_with_context (fuel : Nat) (st : State) (context : ObjectRef) (body : Block) : Res :=
  eval_block fuel st context body

/-- The root handle `Program::eval` allocates. -/
def rootRef : ObjectRef := ObjectRef.mk 0 Metadata.none

/-- The state after `Program::eval` allocates the root object. -/
def initialState : State := State.mk [Obj.root] []

/-- `Program::eval`: evaluate the whole program as one top-level block whose
parent scope is the freshly allocated root object. -/
def evalProgram (fuel : Nat) (b : Block) : Res :=
  eval_block fuel initialState rootRef b

/-! Concrete programs and heaps used by the claim theorems. -/

/-- AST of `(2 add to: 3) println`, as produced by the parser. -/
def addExample : Block :=
  Block.mk [Statement.expression
    (Expression.send
      (Target.expression (Expression.send (Target.number "2")
        [Message.mk "add" [Argument.mk "to" (Expression.number "3")]]))
      [Message.mk "println" []])]

/-- Body of a lambda that sends `name` (then `println`) to whatever scope it
runs under. -/
def greetBody : Block := Block.mk [Statement.expression
  (Expression.send (Target.identifier "name") [Message.mk "println" []])]

/-- Delegation scenario: address 1 is the lambda's defining scope D (no
`name` property), address 2 the `greet` lambda capturing D, address 3 the
prototype P holding `greet`, address 4 the child C extending P and holding
`name` as the Number 42 (at address 5). -/
def heapC1 : List Obj := [
  Obj.root,
  Obj.normal (ObjectRef.mk 0 Metadata.none) [],
  Obj.lambda (ObjectRef.mk 1 Metadata.none) greetBody,
  Obj.normal (ObjectRef.mk 0 Metadata.none) [("greet", ObjectRef.mk 2 Metadata.none)],
  Obj.normal (ObjectRef.mk 3 Metadata.none) [("name", ObjectRef.mk 5 (Metadata.numericValue 42))],
  Obj.number]

def stC1 : State := State.mk heapC1 []

/-- Body of a lambda that prints the number literal `d`. -/
def printBody (d : String) : Block := Block.mk [Statement.expression
  (Expression.send (Target.number d) [Message.mk "println" []])]

/-- Body of the `greet` lambda of the second delegation scenario: looks up
`name` (auto-invoking it) and sends the result a `poke` message. -/
def bodyL : Block := Block.mk [Statement.expression
  (Expression.send (Target.identifier "name") [Message.mk "poke" []])]

/-- Second delegation scenario, with `name` bound in both places: the
defining scope D (address 3) binds `name` to a lambda printing 7, while the
child C (address 6) binds `name` to a lambda printing 42.  C extends P
(address 5), which holds `greet` (address 4, capturing D). -/
def heapC2 : List Obj := [
  Obj.root,
  Obj.lambda (ObjectRef.mk 0 Metadata.none) (printBody "7"),
  Obj.lambda (ObjectRef.mk 0 Metadata.none) (printBody "42"),
  Obj.normal (ObjectRef.mk 0 Metadata.none) [("name", ObjectRef.mk 1 Metadata.none)],
  Obj.lambda (ObjectRef.mk 3 Metadata.none) bodyL,
  Obj.normal (ObjectRef.mk 0 Metadata.none) [("greet", ObjectRef.mk 4 Metadata.none)],
  Obj.normal (ObjectRef.mk 5 Metadata.none) [("name", ObjectRef.mk 2 Metadata.none)]]

def stC2 : State := State.mk heapC2 []

/-- The spec's closure-timing program: `def x 1` / `def f [x println]` /
`def x 2` / `f call`. -/
def c3Program : Block := Block.mk [
  Statement.definition "x" (Expression.number "1"),
  Statement.definition "f" (Expression.lambda (Block.mk [Statement.expression
    (Expression.send (Target.identifier "x") [Message.mk "println" []])])),
  Statement.definition "x" (Expression.number "2"),
  Statement.expression (Expression.send (Target.identifier "f") [Message.mk "call" []])]

/-- The closure-timing program with call-capable (lambda) values:
`def x [1 println]` / `def f [x println]` / `def x [2 println]` /
`f call`. -/
def c3Amended : Block := Block.mk [
  Statement.definition "x" (Expression.lambda (printBody "1")),
  Statement.definition "f" (Expression.lambda (Block.mk [Statement.expression
    (Expression.send (Target.identifier "x") [Message.mk "println" []])])),
  Statement.definition "x" (Expression.lambda (printBody "2")),
  Statement.expression (Expression.send (Target.identifier "f") [Message.mk "call" []])]

/-- A lambda whose body is the single statement `5`. -/
def body5 : Block := Block.mk [Statement.expression (Expression.number "5")]

def stC9 : State := State.mk [Obj.root, Obj.lambda (ObjectRef.mk 0 Metadata.none) body5] []

/-! Specification-side definitions, following the spec's words, used to
state the block-sequencing claim as a refinement. -/

/-- Modelled from the spec: evaluate a list of statements in source order,
discarding each result but keeping its side effects, aborting on the first
error. -/
def runStatementsDiscard (f : Statement → State → Res) :
    List Statement → State → (Except Err Unit) × State
  | [], st => (Except.ok Unit.unit, st)
  | s :: rest, st =>
    match f s st with
    | (Except.error e, st2) => (Except.error e, st2)
    | (Except.ok _, st2) => runStatementsDiscard f rest st2

/-- Modelled from the spec: run every statement before the last one in
order for effect only, then return the last statement's result. -/
def seqStatementsThenLast (f : Statement → State → Res) (front : List Statement)
    (lastS : Statement) (st : State) : Res :=
  match runStatementsDiscard f front st with
  | (Except.error e, st2) => (Except.error e, st2)
  | (Except.ok _, st2) => f lastS st2

/-- Modelled from the spec: the decimal value of a digit string. -/
def decimalValue (cs : List Char) : Nat :=
  cs.foldl (fun acc c => acc * 10 + (c.toNat - 48)) 0

/-- `name` is bound in no scope of the prototype chain that starts at heap
address `addr` and reaches the root in `k` delegation steps. -/
inductive UnboundChain (heap : List Obj) (name : String) : Nat → Nat → Prop where
  | root (addr : Nat) (h : heap[addr]? = Option.some Obj.root) :
      UnboundChain heap name addr 0
  | step (addr : Nat) (proto : ObjectRef) (props : List (String × ObjectRef)) (k : Nat)
      (hobj : heap[addr]? = Option.some (Obj.normal proto props))
      (hmiss : findProp props name = Option.none)
      (hrest : UnboundChain heap name proto.addr k) :
      UnboundChain heap name addr (k + 1)

/-! Helper lemmas. -/

/-- The statement loop of `eval_block`, run on `front ++ [lastS]`, is the
sequential effect-only run of `front` followed by the evaluation of
`lastS`, whose result is returned. -/
theorem runStmtsLoop_append (f : Statement → State → Res) (front : List Statement)
    (lastS : Statement) : ∀ (v : ObjectRef) (st : State),
    runStmtsLoop f v (front ++ [lastS]) st = seqStatementsThenLast f front lastS st := by
  induction front with
  | nil =>
    intro v st
    simp only [List.nil_append, runStmtsLoop, seqStatementsThenLast, runStatementsDiscard]
    rcases h : f lastS st with ⟨r, st2⟩
    cases r <;> simp [runStmtsLoop]
  | cons s rest ih =>
    intro v st
    simp only [List.cons_append, runStmtsLoop, seqStatementsThenLast, runStatementsDiscard]
    rcases h : f s st with ⟨r, st2⟩
    cases r with
    | error e => simp
    | ok v2 => simp only [List.append_eq, ih, seqStatementsThenLast]

/-- Sending a message whose name is unbound along a prototype chain ending
at the root produces UnknownMessage and leaves the state untouched. -/
theorem send_unbound_chain (st : State) (name : String) (args : List (String × ObjectRef))
    (k : Nat) (addr : Nat) (hchain : UnboundChain st.heap name addr k) :
    ∀ (md : Metadata) (target : ObjectRef) (fuel : Nat), k < fuel →
    send fuel st (ObjectRef.mk addr md) target (EvaluatedMessage.mk name args)
      = (Except.error Err.unknownMessage, st) := by
  induction hchain with
  | root a h =>
    intro md target fuel hlt
    match fuel, hlt with
    | Nat.succ f, _ => simp [send, evalStep, evalStepF, h]
  | step a proto props k hobj hmiss hrest ih =>
    intro md target fuel hlt
    match fuel, hlt with
    | Nat.succ f, hlt =>
      have hk : k < f := Nat.lt_of_succ_lt_succ hlt
      have hrec := ih proto.metadata target f hk
      simp only [send, evalStep, evalStepF, hobj, hmiss] at hrec ⊢
      exact hrec

/-- On a list of digit characters, the parsing accumulator succeeds with
the decimal fold. -/
theorem digitsToNat_of_digits (cs : List Char) :
    ∀ (acc : Nat), (∀ c ∈ cs, c.isDigit) →
    digitsToNat cs acc
      = Option.some (cs.foldl (fun a c => a * 10 + (c.toNat - 48)) acc) := by
  induction cs with
  | nil => intro acc _; simp [digitsToNat]
  | cons c rest ih =>
    intro acc hall
    have hc : c.isDigit := hall c (List.mem_cons_self c rest)
    have hrest : ∀ x ∈ rest, x.isDigit := fun x hx => hall x (List.mem_cons_of_mem c hx)
    simp [digitsToNat, hc, ih (acc * 10 + (c.toNat - 48)) hrest]

/-! Claim theorems. -/

/-- C1: in the concrete delegation scenario (C extends P, P holds `greet`
as a lambda whose body sends `name`, only C defines `name`), sending
`greet` to C does not resolve `name` against C: evaluation fails with
UnknownMessage and prints nothing, because the found lambda is invoked with
itself as context and runs under its captured defining scope, which lacks
`name`.  This contradicts the claim's consequent. -/
theorem inherited_lambda_drops_receiver_context :
    (send 15 stC1 (ObjectRef.mk 4 Metadata.none) (ObjectRef.mk 4 Metadata.none)
      (EvaluatedMessage.mk "greet" [])).1 = Except.error Err.unknownMessage
    ∧ (send 15 stC1 (ObjectRef.mk 4 Metadata.none) (ObjectRef.mk 4 Metadata.none)
      (EvaluatedMessage.mk "greet" [])).2.output = [] :=
  And.intro rfl rfl

/-- C2: in the second delegation scenario (`name` bound to a 7-printing
lambda in the defining scope D and to a 42-printing lambda on the child C),
both a direct `call` to the lambda and the bubbled `greet` send to C print
7: the bubbled path also evaluates the body under the captured scope.  The
source's own `call_with_context`, which is never called, would have
evaluated the body under the delegated context C and printed 42. -/
theorem bubbled_call_uses_captured_scope :
    (send 15 stC2 (ObjectRef.mk 4 Metadata.none) (ObjectRef.mk 4 Metadata.none)
      (EvaluatedMessage.mk "call" [])).2.output = [7]
    ∧ (send 15 stC2 (ObjectRef.mk 6 Metadata.none) (ObjectRef.mk 6 Metadata.none)
      (EvaluatedMessage.mk "greet" [])).2.output = [7]
    ∧ (call_with_context 15 stC2 (ObjectRef.mk 6 Metadata.none) bodyL).2.output = [42] :=
  And.intro rfl (And.intro rfl rfl)

/-- C3 counterexample: the spec's exact program `def x 1` / `def f
[x println]` / `def x 2` / `f call` does not print 2: it aborts with
UnknownMessage (looking up `x` auto-sends `call` to the stored Number,
which Numbers do not answer) and prints nothing. -/
theorem closure_timing_program_fails :
    (evalProgram 12 c3Program).1 = Except.error Err.unknownMessage
    ∧ (evalProgram 12 c3Program).2.output = [] :=
  And.intro rfl rfl

/-- C3 amended: a lambda literal captures the current scope handle itself
(aliased, not copied), and with call-capable (lambda) values the
redefinition made after capture but before the call is the one the body
sees: the amended program prints 2. -/
theorem closure_captures_live_scope :
    (∀ (fuel : Nat) (st : State) (scope : ObjectRef) (body : Block),
      eval_expression (fuel + 1) st scope (Expression.lambda body)
        = (Except.ok (freshRef st Metadata.none), allocState st (Obj.lambda scope body)))
    ∧ (evalProgram 20 c3Amended).1 = Except.ok (ObjectRef.mk 8 Metadata.none)
    ∧ (evalProgram 20 c3Amended).2.output = [2] :=
  And.intro (fun _ _ _ _ => rfl) (And.intro rfl rfl)

/-- C4: `Number#add` with the single argument `to:` carrying a numeric
payload returns a freshly allocated Number whose payload is the 64-bit
signed wraparound sum, with no other state change; and the program
`(2 add to: 3) println` prints exactly 5. -/
theorem number_add_wraparound :
    (∀ (fuel : Nat) (st : State) (a b : ObjectRef) (x y : Int),
      st.heap[a.addr]? = Option.some Obj.number →
      a.metadata = Metadata.numericValue x →
      b.metadata = Metadata.numericValue y →
      send (fuel + 1) st a a (EvaluatedMessage.mk "add" [("to", b)]) =
        (Except.ok (ObjectRef.mk st.heap.length (Metadata.numericValue (i64wrap (x + y)))),
          State.mk (st.heap ++ [Obj.number]) st.output))
    ∧ (evalProgram 10 addExample).2.output = [5]
    ∧ (evalProgram 10 addExample).1 = Except.ok (ObjectRef.mk 5 Metadata.none) := by
  refine And.intro ?_ (And.intro rfl rfl)
  intro fuel st a b x y h1 h2 h3
  simp [send, evalStep, evalStepF, numberSend, h1, h2, h3, isMessageValid, getArgument,
    freshRef]

/-- C4 witness: 2 add to: 3 at the dispatch level. -/
theorem number_add_wraparound_witness :
    send 1 (State.mk [Obj.number] []) (ObjectRef.mk 0 (Metadata.numericValue 2))
      (ObjectRef.mk 0 (Metadata.numericValue 2))
      (EvaluatedMessage.mk "add" [("to", ObjectRef.mk 0 (Metadata.numericValue 3))]) =
      (Except.ok (ObjectRef.mk 1 (Metadata.numericValue (i64wrap (2 + 3)))),
        State.mk [Obj.number, Obj.number] []) :=
  number_add_wraparound.1 0 (State.mk [Obj.number] [])
    (ObjectRef.mk 0 (Metadata.numericValue 2))
    (ObjectRef.mk 0 (Metadata.numericValue 3)) 2 3 rfl rfl rfl

/-- C5: sending any message, with any arguments, to a Void returns the
execution-context handle unchanged, with no state change and no error. -/
theorem void_send_returns_context (fuel : Nat) (st : State) (r target : ObjectRef)
    (msg : EvaluatedMessage) (h : st.heap[r.addr]? = Option.some Obj.void) :
    send (fuel + 1) st r target msg = (Except.ok target, st) := by
  simp [send, evalStep, evalStepF, h]

/-- C5 witness: a concrete Void receiver and an arbitrary message. -/
theorem void_send_returns_context_witness :
    send 1 (State.mk [Obj.void] []) (ObjectRef.mk 0 Metadata.none)
      (ObjectRef.mk 7 (Metadata.numericValue 3))
      (EvaluatedMessage.mk "anything" [("a", ObjectRef.mk 0 Metadata.none)]) =
      (Except.ok (ObjectRef.mk 7 (Metadata.numericValue 3)), State.mk [Obj.void] []) :=
  void_send_returns_context 0 (State.mk [Obj.void] []) (ObjectRef.mk 0 Metadata.none)
    (ObjectRef.mk 7 (Metadata.numericValue 3))
    (EvaluatedMessage.mk "anything" [("a", ObjectRef.mk 0 Metadata.none)]) rfl

/-- C6: evaluating a non-empty block allocates a fresh scope extending the
parent, runs every statement before the last one exactly once, in source
order, for effect only, and returns the last statement's result. -/
theorem eval_block_runs_statements_in_order (fuel : Nat) (st : State) (parent : ObjectRef)
    (front : List Statement) (lastS : Statement) :
    eval_block (fuel + 1) st parent (Block.mk (front ++ [lastS])) =
      seqStatementsThenLast (fun s st2 => eval_statement fuel st2 (freshScopeRef st) s)
        front lastS (allocScope st parent) := by
  cases front with
  | nil =>
    simp only [List.nil_append, eval_block, evalStep, evalStepF, seqStatementsThenLast,
      runStatementsDiscard, eval_statement]
    rcases h : evalStep fuel (Task.stmt (freshScopeRef st) lastS) (allocScope st parent)
      with ⟨r, st2⟩
    cases r <;> simp [runStmtsLoop]
  | cons s rest =>
    simp only [List.cons_append, eval_block, evalStep, evalStepF, seqStatementsThenLast,
      runStatementsDiscard, eval_statement]
    rcases h : evalStep fuel (Task.stmt (freshScopeRef st) s) (allocScope st parent)
      with ⟨r, st2⟩
    cases r with
    | error e => simp
    | ok v => simp only [runStmtsLoop_append, seqStatementsThenLast]

/-- C7: a block with zero statements fails with EmptyBlock, printing
nothing from that block; the same holds for the empty top-level program. -/
theorem empty_block_fails (fuel : Nat) (st : State) (parent : ObjectRef) :
    (eval_block (fuel + 1) st parent (Block.mk [])).1 = Except.error Err.emptyBlock
    ∧ (eval_block (fuel + 1) st parent (Block.mk [])).2.output = st.output
    ∧ (evalProgram (fuel + 1) (Block.mk [])).1 = Except.error Err.emptyBlock
    ∧ (evalProgram (fuel + 1) (Block.mk [])).2.output = [] := by
  refine And.intro ?_ (And.intro ?_ (And.intro ?_ ?_)) <;>
    simp [eval_block, evalProgram, evalStep, evalStepF, allocScope, allocState, initialState]

/-- C8: a bare identifier as a send target is evaluated exactly as a
zero-argument message named by the identifier sent to the current scope,
so when the identifier is bound in no scope of the chain (which ends at
the root), the whole expression fails with UnknownMessage — the same error
the plain send produces — regardless of the attached messages. -/
theorem unbound_identifier_unknown_message (fuel k : Nat) (st : State) (scope : ObjectRef)
    (name : String) (msgs : List Message)
    (hchain : UnboundChain st.heap name scope.addr k) (hlt : k < fuel) :
    eval_expression (fuel + 1) st scope (Expression.send (Target.identifier name) msgs)
        = (Except.error Err.unknownMessage, st)
    ∧ send fuel st scope scope (EvaluatedMessage.mk name [])
        = (Except.error Err.unknownMessage, st) := by
  have hsend := send_unbound_chain st name [] k scope.addr hchain scope.metadata scope fuel hlt
  have hscope : ObjectRef.mk scope.addr scope.metadata = scope := rfl
  rw [hscope] at hsend
  refine And.intro ?_ hsend
  simp only [send] at hsend
  simp [eval_expression, evalStep, evalStepF, hsend]

/-- C8 witness: an unbound identifier under a one-level scope chain. -/
theorem unbound_identifier_unknown_message_witness :
    eval_expression 3 (State.mk [Obj.root, Obj.normal (ObjectRef.mk 0 Metadata.none) []] [])
        (ObjectRef.mk 1 Metadata.none)
        (Expression.send (Target.identifier "foo") [Message.mk "println" []])
        = (Except.error Err.unknownMessage,
            State.mk [Obj.root, Obj.normal (ObjectRef.mk 0 Metadata.none) []] [])
    ∧ send 2 (State.mk [Obj.root, Obj.normal (ObjectRef.mk 0 Metadata.none) []] [])
        (ObjectRef.mk 1 Metadata.none) (ObjectRef.mk 1 Metadata.none)
        (EvaluatedMessage.mk "foo" [])
        = (Except.error Err.unknownMessage,
            State.mk [Obj.root, Obj.normal (ObjectRef.mk 0 Metadata.none) []] []) :=
  unbound_identifier_unknown_message 2 1
    (State.mk [Obj.root, Obj.normal (ObjectRef.mk 0 Metadata.none) []] [])
    (ObjectRef.mk 1 Metadata.none) "foo" [Message.mk "println" []]
    (UnboundChain.step 1 (ObjectRef.mk 0 Metadata.none) [] 0 rfl rfl
      (UnboundChain.root 0 rfl))
    (by decide)

/-- C9 counterexample: sending `call` with an argument to a lambda does not
fail — it succeeds, ignoring the argument, and returns the body's value. -/
theorem lambda_call_with_argument_succeeds :
    (send 6 stC9 (ObjectRef.mk 1 Metadata.none) (ObjectRef.mk 1 Metadata.none)
      (EvaluatedMessage.mk "call" [("to", ObjectRef.mk 0 Metadata.none)])).1
      = Except.ok (ObjectRef.mk 3 (Metadata.numericValue 5)) :=
  rfl

/-- C9 amended: a lambda answers UnknownMessage to every message other than
`call`; it accepts `call` with any argument list (the arguments are
silently ignored, with no signature check), evaluating its body block under
its captured scope, whose value is the body's final statement's result. -/
theorem lambda_send_dispatch :
    (∀ (fuel : Nat) (st : State) (r target parentScope : ObjectRef) (body : Block)
      (msg : EvaluatedMessage),
      st.heap[r.addr]? = Option.some (Obj.lambda parentScope body) →
      msg.name ≠ "call" →
      send (fuel + 1) st r target msg = (Except.error Err.unknownMessage, st))
    ∧ (∀ (fuel : Nat) (st : State) (r target parentScope : ObjectRef) (body : Block)
      (args : List (String × ObjectRef)),
      st.heap[r.addr]? = Option.some (Obj.lambda parentScope body) →
      send (fuel + 1) st r target (EvaluatedMessage.mk "call" args) =
        eval_block fuel st parentScope body) := by
  constructor
  · intro fuel st r target parentScope body msg h hname
    simp [send, evalStep, evalStepF, h, hname]
  · intro fuel st r target parentScope body args h
    simp [send, eval_block, evalStep, evalStepF, h]

/-- C9 witness: concrete lambda, a non-`call` message and a `call` with an
argument. -/
theorem lambda_send_dispatch_witness :
    send 6 stC9 (ObjectRef.mk 1 Metadata.none) (ObjectRef.mk 1 Metadata.none)
      (EvaluatedMessage.mk "greet" []) = (Except.error Err.unknownMessage, stC9)
    ∧ send 6 stC9 (ObjectRef.mk 1 Metadata.none) (ObjectRef.mk 1 Metadata.none)
      (EvaluatedMessage.mk "call" [("to", ObjectRef.mk 0 Metadata.none)])
      = eval_block 5 stC9 (ObjectRef.mk 0 Metadata.none) body5 :=
  And.intro
    (lambda_send_dispatch.1 5 stC9 (ObjectRef.mk 1 Metadata.none)
      (ObjectRef.mk 1 Metadata.none) (ObjectRef.mk 0 Metadata.none) body5
      (EvaluatedMessage.mk "greet" []) rfl (by decide))
    (lambda_send_dispatch.2 5 stC9 (ObjectRef.mk 1 Metadata.none)
      (ObjectRef.mk 1 Metadata.none) (ObjectRef.mk 0 Metadata.none) body5
      [("to", ObjectRef.mk 0 Metadata.none)] rfl)

/-- C10: a numeric literal whose digit string exceeds the `i64` range fails
during Number construction, leaving the state unchanged (no handle is
produced); an in-range digit string yields a fresh Number whose payload is
the string's decimal value. -/
theorem number_literal_range :
    (∀ (fuel : Nat) (st : State) (scope : ObjectRef) (digits : String),
      digits.data ≠ [] → (∀ c ∈ digits.data, c.isDigit) →
      i64Max < (decimalValue digits.data : Int) →
      eval_expression (fuel + 1) st scope (Expression.number digits)
        = (Except.error Err.numberParseFailure, st))
    ∧ (∀ (fuel : Nat) (st : State) (scope : ObjectRef) (digits : String),
      digits.data ≠ [] → (∀ c ∈ digits.data, c.isDigit) →
      (decimalValue digits.data : Int) ≤ i64Max →
      eval_expression (fuel + 1) st scope (Expression.number digits)
        = (Except.ok (ObjectRef.mk st.heap.length
            (Metadata.numericValue (decimalValue digits.data))),
            State.mk (st.heap ++ [Obj.number]) st.output)) := by
  constructor
  · intro fuel st scope digits hne hdig hbig
    rcases hd : digits.data with _ | ⟨c, cs⟩
    · exact absurd hd hne
    · rw [hd] at hdig hbig
      have hparse := digitsToNat_of_digits (c :: cs) 0 hdig
      simp only [eval_expression, evalStep, evalStepF, numberNewReference, parseI64, hd,
        hparse, decimalValue] at hbig ⊢
      rw [if_neg (not_le.mpr hbig)]
  · intro fuel st scope digits hne hdig hle
    rcases hd : digits.data with _ | ⟨c, cs⟩
    · exact absurd hd hne
    · rw [hd] at hdig hle
      have hparse := digitsToNat_of_digits (c :: cs) 0 hdig
      simp only [eval_expression, evalStep, evalStepF, numberNewReference, parseI64, hd,
        hparse, decimalValue, freshRef, allocState] at hle ⊢
      rw [if_pos hle]

/-- C10 witness: the out-of-range literal 2^63 fails; the literal 3 yields
payload 3. -/
theorem number_literal_range_witness :
    eval_expression 1 initialState rootRef (Expression.number "9223372036854775808")
      = (Except.error Err.numberParseFailure, initialState)
    ∧ eval_expression 1 initialState rootRef (Expression.number "3")
      = (Except.ok (ObjectRef.mk 1 (Metadata.numericValue 3)),
          State.mk [Obj.root, Obj.number] []) :=
  And.intro
    (number_literal_range.1 0 initialState rootRef "9223372036854775808"
      (by decide) (by decide) (by decide))
    (number_literal_range.2 0 initialState rootRef "3"
      (by decide) (by decide) (by decide))

end Lithium
